import Mathlib

/-!
Verification of the appointment-ledger core of the voice booking agent
(src/utils.py and the tool layer of src/booking.py).

The ledger file is a CSV table of rows (date, time, is_booked, purpose, name);
we embed it as `Option Table` (`none` = file absent). Date strings are embedded
as the inductive syntax `DateStr` covering the formats the spec names
("YYYY-MM-DD", two-digit-first "DD-MM-YYYY", and month-name forms such as
"May 30, 2025"); the two normalizers of the source — `dateutil.parser.parse`
with `dayfirst=True` for user input, and `pd.to_datetime` (element-wise,
month-first default) for the stored `date` column — are embedded as
`parseDayfirst` and `normStored` following dateutil's three-token
resolution rules.
-/

namespace VoiceAgent

/-- Gregorian leap-year test (as used by Python `datetime` validity). -/
def isLeapYear (y : Nat) : Bool :=
  (y % 4 == 0 && y % 100 != 0) || y % 400 == 0

/-- Number of days of month `m` in year `y`. -/
def daysInMonth (y m : Nat) : Nat :=
  if m == 2 then (if isLeapYear y then 29 else 28)
  else if m == 4 || m == 6 || m == 9 || m == 11 then 30
  else 31

/-- Validity of a calendar date, as enforced by Python `datetime(y, m, d)`. -/
def validDate (y m d : Nat) : Bool :=
  1 ≤ y && y ≤ 9999 && 1 ≤ m && m ≤ 12 && 1 ≤ d && d ≤ daysInMonth y m

/-- Shallow embedding of the date-string formats handled by the system:
`ymd y m d` is "YYYY-MM-DD" (4-digit year first), `dmy a b y` is "AA-BB-YYYY"
(two 1-2 digit fields, 4-digit year last), `monthName m d y` is a long form
such as "May 30, 2025" (with `m` the month number the name denotes).
Distinct values denote distinct strings, so equality of `DateStr` models
string equality. -/
inductive DateStr where
  | ymd (y m d : Nat)
  | dmy (a b y : Nat)
  | monthName (m d y : Nat)
deriving DecidableEq, Repr

/-- Build the canonical `strftime("%Y-%m-%d")` output, checking `datetime`
validity as the Python parsers do. -/
def mkDate (y m d : Nat) : Option DateStr :=
  if validDate y m d then some (.ymd y m d) else none

/-- Embeds `dateutil.parser.parse(s, dayfirst=True).strftime("%Y-%m-%d")`:
with a leading 4-digit year, dateutil takes the second numeric field as the
day whenever the third can be a month; with a trailing 4-digit year it takes
the first field as the day when it exceeds 12 or when the second field can be
a month; a first field above 31 makes the resolution fail. Month-name forms
are unambiguous. -/
def parseDayfirst : DateStr → Option DateStr
  | .ymd y a b => if b ≤ 12 then mkDate y b a else mkDate y a b
  | .dmy a b y =>
      if 31 < a then none
      else if 12 < a ∨ b ≤ 12 then mkDate y b a
      else mkDate y a b
  | .monthName m d y => mkDate y m d

/-- Embeds `pd.to_datetime` applied element-wise to a stored date string and
formatted back with `strftime("%Y-%m-%d")` (dateutil defaults: month-first;
the first field of a trailing-year numeric date is read as the month unless
it exceeds 12). -/
def normStored : DateStr → Option DateStr
  | .ymd y a b => mkDate y a b
  | .dmy a b y =>
      if 31 < a then none
      else if 12 < a then mkDate y b a
      else mkDate y a b
  | .monthName m d y => mkDate y m d

/-- ASCII lower-casing of one character, as Python `str.lower()` does on the
ASCII strings the ledger stores. -/
def lowerChar (c : Char) : Char :=
  if 65 ≤ c.toNat ∧ c.toNat ≤ 90 then Char.ofNat (c.toNat + 32) else c

/-- Models Python `str.lower()` (ASCII range). -/
def lowerStr (s : String) : String := ⟨s.data.map lowerChar⟩

/-- ASCII whitespace, as stripped by Python `str.strip()`. -/
def isWS (c : Char) : Bool := c == ' ' || c == '\t' || c == '\n' || c == '\r'

/-- Models Python `str.strip()` (ASCII whitespace). -/
def trimStr (s : String) : String :=
  ⟨((s.data.dropWhile isWS).reverse.dropWhile isWS).reverse⟩

/-- One CSV row of the ledger (header `date,time,is_booked,purpose,name`).
All fields except the embedded date are free-form strings, exactly as
`csv.DictReader` delivers them. -/
structure Row where
  date : DateStr
  time : String
  is_booked : String
  purpose : String
  name : String
deriving DecidableEq, Repr

/-- The parsed content of the ledger CSV file. -/
abbrev Table := List Row

/-- Errors raised by the ledger operations: `dateParseError` embeds the
`ValueError("Unable to parse the date: ...")` raised on unparseable input;
`storedDateError` embeds the exception `pd.to_datetime` raises when a stored
date cell cannot be normalized. -/
inductive LedgerError where
  | dateParseError
  | storedDateError
deriving DecidableEq, Repr

/-- Normalization of one stored row's date, as done by
`df['date'] = pd.to_datetime(df['date']).dt.strftime("%Y-%m-%d")`. -/
def normRow (r : Row) : Option Row :=
  match normStored r.date with
  | none => none
  | some d => some { r with date := d }

/-- Normalization of the whole stored `date` column; fails (the pandas call
raises) as soon as one cell is unparseable. -/
def normTable : Table → Option Table
  | [] => some []
  | r :: rs =>
      match normRow r, normTable rs with
      | some r2, some rs2 => some (r2 :: rs2)
      | _, _ => none

/-- The row filter of `get_free_slots`:
`(df['date'] == formatted_date) & (df['is_booked'].astype(str).str.lower() == 'false')`. -/
def freeOn (fd : DateStr) (r : Row) : Bool :=
  decide (r.date = fd ∧ lowerStr r.is_booked = "false")

/-- Embeds `utils.get_free_slots(appointment_csv, date)`: parse the input date
day-first (raising on failure), return `[]` when the file is missing,
normalize the stored date column, and return the `time` values of the rows
matching the date whose `is_booked` reads as false, in file order. -/
def get_free_slots (file : Option Table) (date : DateStr) :
    Except LedgerError (List String) :=
  match parseDayfirst date with
  | none => .error .dateParseError
  | some formatted_date =>
      match file with
      | none => .ok []
      | some rows =>
          match normTable rows with
          | none => .error .storedDateError
          | some nrows =>
              .ok ((nrows.filter (freeOn formatted_date)).map (fun r => r.time))

/-- The per-row body of the read loop of `store_appointment`: a row whose
stored date equals the canonicalized input literally and whose time matches
exactly is booked when its `is_booked` reads as false; the second component
records whether this row set `updated`. -/
def bookRow (formatted_date : DateStr) (time purpose name : String) (r : Row) :
    Row × Bool :=
  if r.date = formatted_date ∧ r.time = time then
    if lowerStr r.is_booked = "false" then
      ({ r with is_booked := "True", purpose := purpose, name := name }, true)
    else (r, false)
  else (r, false)

/-- Embeds `utils.store_appointment(appointment_csv, date, time, purpose, name)`:
parse the date day-first (raising on failure, file untouched), return false
when the file is missing, book every matching free row, and rewrite the whole
file only when at least one row was updated. Returns the result together
with the file state after the call. -/
def store_appointment (file : Option Table) (date : DateStr)
    (time purpose name : String) : Except LedgerError Bool × Option Table :=
  match parseDayfirst date with
  | none => (.error .dateParseError, file)
  | some formatted_date =>
      match file with
      | none => (.ok false, file)
      | some rows =>
          let processed := rows.map (bookRow formatted_date time purpose name)
          let updated := processed.any (fun p => p.2)
          if updated then (.ok true, some (processed.map (fun p => p.1)))
          else (.ok false, file)

/-- The row predicate of the `cancel_appointment` loop:
`row['date'] == formatted_date and row['name'].strip().lower() == name.strip().lower()
and row['is_booked'].strip().lower() == 'true'`. -/
def cancelMatch (formatted_date : DateStr) (name : String) (r : Row) : Bool :=
  decide (r.date = formatted_date ∧ lowerStr (trimStr r.name) = lowerStr (trimStr name) ∧
    lowerStr (trimStr r.is_booked) = "true")

/-- The per-row body of the `cancel_appointment` loop: a matching booked row
has `is_booked` set to `'False'` and its `name` and `purpose` cleared. -/
def cancelRow (formatted_date : DateStr) (name : String) (r : Row) : Row × Bool :=
  if cancelMatch formatted_date name r then
    ({ r with is_booked := "False", name := "", purpose := "" }, true)
  else (r, false)

/-- Embeds `utils.cancel_appointment(appointment_csv, date, name)`: parse the
date day-first (raising on failure, file untouched), return false when the
file is missing, cancel every matching booked row, rewrite only when at least
one row changed. Returns the result together with the file state after the
call. -/
def cancel_appointment (file : Option Table) (date : DateStr) (name : String) :
    Except LedgerError Bool × Option Table :=
  match parseDayfirst date with
  | none => (.error .dateParseError, file)
  | some formatted_date =>
      match file with
      | none => (.ok false, file)
      | some rows =>
          let processed := rows.map (cancelRow formatted_date name)
          let updated := processed.any (fun p => p.2)
          if updated then (.ok true, some (processed.map (fun p => p.1)))
          else (.ok false, file)

/-! The tool layer of `src/booking.py`. The process's file system is embedded
as a map from paths to parsed file contents; the fields of the session's
`UserData` dataclass that the ledger tools touch are embedded directly. -/

/-- The file system visible to the agent: each path holds an (optional) parsed
ledger table. -/
def FS : Type := String → Option Table

/-- The session state `UserData` of `src/booking.py` (the fields relevant to
the ledger tools, with the same defaults). -/
structure UserData where
  appointment_csv : String := "appointments.csv"
  selected_date : Option DateStr := none
  selected_time : Option String := none
  purpose : Option String := none
  name : Option String := none

namespace AppointmentAgent

/-- Embeds the tool `AppointmentAgent.get_available_slots`: it records the raw
input date as `selected_date` first, answers `[]` when the configured file
does not exist, and otherwise calls `get_free_slots`, catching every
exception and answering `[]` in that case. Returns the spoken slot list and
the updated session state. -/
def get_available_slots (fs : FS) (ud : UserData) (date : DateStr) :
    List String × UserData :=
  let ud2 := { ud with selected_date := some date }
  match fs ud2.appointment_csv with
  | none => ([], ud2)
  | some file =>
      match get_free_slots (some file) date with
      | .ok slots => (slots, ud2)
      | .error _ => ([], ud2)

/-- Embeds the tool `AppointmentAgent.appointment_saved`: calls
`store_appointment` on the session's configured CSV path and reports the
status message; an exception propagates (file system unchanged). -/
def appointment_saved (fs : FS) (ud : UserData) (date : DateStr)
    (time purpose name : String) : Except LedgerError String × FS :=
  match store_appointment (fs ud.appointment_csv) date time purpose name with
  | (.error e, _) => (.error e, fs)
  | (.ok saved, file2) =>
      (.ok (if saved then "The appointment has been saved."
            else "There was an error saving the appointment."),
       fun q => if q = ud.appointment_csv then file2 else fs q)

/-- Embeds the tool `AppointmentAgent.cancel_appointment`: it ignores the
session state and calls the ledger's cancel on the hard-coded path
`"appointments.csv"`; an exception propagates (file system unchanged). -/
def cancel_appointment (fs : FS) (ud : UserData) (name : String)
    (date : DateStr) : Except LedgerError String × FS :=
  let appointment_csv := "appointments.csv"
  match VoiceAgent.cancel_appointment (fs appointment_csv) date name with
  | (.error e, _) => (.error e, fs)
  | (.ok success, file2) =>
      (.ok (if success then "Your appointment has been canceled."
            else "Could not find an appointment to cancel."),
       fun q => if q = appointment_csv then file2 else fs q)

end AppointmentAgent

/-! Auxiliary definitions used by the statements below. -/

/-- A date-string representation is unambiguous when its two non-year numeric
fields cannot be swapped by the two resolution policies: in canonical
`YYYY-MM-DD` form the last field exceeds 12 (or equals the middle one), in a
trailing-year numeric form the first field exceeds 12 (or equals the second),
and month-name forms are always unambiguous. -/
def unambiguousDate : DateStr → Bool
  | .ymd _ a b => 12 < b || a == b
  | .dmy a b _ => 31 < a || 12 < a || 12 < b || a == b
  | .monthName _ _ _ => true

/-- The structural content of a table: its rows' `(date, time)` pairs in file
order. Booking and cancellation are claimed to preserve it. -/
def shape : Option Table → Option (List (DateStr × String)) :=
  Option.map (List.map (fun r => (r.date, r.time)))

/-- A two-row ledger whose rows denote the same calendar day and time slot in
two different date formats; used to exercise the literal-vs-normalized date
comparison mismatch between booking and slot listing. -/
def mixedTable : Table :=
  [⟨.dmy 30 5 2025, "10:00", "False", "", ""⟩,
   ⟨.ymd 2025 5 30, "10:00", "False", "", ""⟩]

/-- A one-row ledger in canonical date form with the slot free. -/
def canonFree : Table := [⟨.ymd 2025 5 30, "10:00", "False", "", ""⟩]

/-- A one-row ledger in canonical date form with the slot booked. -/
def canonBooked : Table := [⟨.ymd 2025 5 30, "10:00", "True", "dentist", "Alice"⟩]

/-- A two-row ledger with one free and one booked slot on the same day. -/
def twoSlots : Table :=
  [⟨.ymd 2025 5 30, "10:00", "False", "", ""⟩,
   ⟨.ymd 2025 5 30, "11:00", "True", "checkup", "Bob"⟩]

/-- A concrete file system whose every path holds the one-row booked ledger. -/
def exFS : FS := fun _ => some canonBooked

/-- A concrete file system whose every path holds an empty ledger table. -/
def exFS2 : FS := fun _ => some []

end VoiceAgent

deriving instance DecidableEq for Except

namespace VoiceAgent

/-! Helper lemmas about the embedded operations. -/

theorem mkDate_norm {y m d : Nat} {c : DateStr} (h : mkDate y m d = some c) :
    normStored c = some c := by
  unfold mkDate at h
  by_cases hv : validDate y m d = true
  · rw [if_pos hv] at h
    cases h
    simp [normStored, mkDate, hv]
  · rw [if_neg hv] at h
    cases h

theorem parseDayfirst_norm {s c : DateStr} (h : parseDayfirst s = some c) :
    normStored c = some c := by
  cases s with
  | ymd y a b =>
      rw [parseDayfirst] at h
      split at h <;> exact mkDate_norm h
  | dmy a b y =>
      rw [parseDayfirst] at h
      split at h
      · cases h
      · split at h <;> exact mkDate_norm h
  | monthName m d y =>
      rw [parseDayfirst] at h
      exact mkDate_norm h

theorem normTable_id {rows : Table}
    (h : ∀ r ∈ rows, normStored r.date = some r.date) :
    normTable rows = some rows := by
  induction rows with
  | nil => rfl
  | cons r rs ih =>
      have hr : normStored r.date = some r.date := h r (by simp)
      have hrs : normTable rs = some rs := ih (fun x hx => h x (by simp [hx]))
      simp [normTable, normRow, hr, hrs]

theorem normRow_fields {r r2 : Row} (h : normRow r = some r2) :
    r2.time = r.time ∧ r2.is_booked = r.is_booked := by
  unfold normRow at h
  cases hd : normStored r.date with
  | none => rw [hd] at h; cases h
  | some d2 => rw [hd] at h; cases h; exact ⟨rfl, rfl⟩

theorem normTable_mem {rows nrows : Table} (h : normTable rows = some nrows) :
    ∀ nr ∈ nrows, ∃ r ∈ rows, nr.time = r.time ∧ nr.is_booked = r.is_booked := by
  induction rows generalizing nrows with
  | nil =>
      cases h
      intro nr hnr
      cases hnr
  | cons r rs ih =>
      rw [normTable] at h
      cases hnr : normRow r with
      | none => rw [hnr] at h; cases h
      | some r2 =>
          rw [hnr] at h
          cases hns : normTable rs with
          | none => rw [hns] at h; cases h
          | some rs2 =>
              rw [hns] at h
              cases h
              intro nr hmem
              rcases List.mem_cons.1 hmem with heq | htail
              · subst heq
                exact ⟨r, by simp, (normRow_fields hnr).1, (normRow_fields hnr).2⟩
              · obtain ⟨q, hq, h1, h2⟩ := ih hns nr htail
                exact ⟨q, by simp [hq], h1, h2⟩

theorem normTable_map_time {rows nrows : Table} (h : normTable rows = some nrows) :
    nrows.map (fun r => r.time) = rows.map (fun r => r.time) := by
  induction rows generalizing nrows with
  | nil => cases h; rfl
  | cons r rs ih =>
      rw [normTable] at h
      cases hnr : normRow r with
      | none => rw [hnr] at h; cases h
      | some r2 =>
          rw [hnr] at h
          cases hns : normTable rs with
          | none => rw [hns] at h; cases h
          | some rs2 =>
              rw [hns] at h
              cases h
              simp [(normRow_fields hnr).1, ih hns]

theorem bookRow_fst_date (fd : DateStr) (t p n : String) (r : Row) :
    (bookRow fd t p n r).1.date = r.date := by
  unfold bookRow
  split
  · split <;> rfl
  · rfl

theorem bookRow_fst_time (fd : DateStr) (t p n : String) (r : Row) :
    (bookRow fd t p n r).1.time = r.time := by
  unfold bookRow
  split
  · split <;> rfl
  · rfl

theorem bookRow_snd_iff (fd : DateStr) (t p n : String) (r : Row) :
    (bookRow fd t p n r).2 = true ↔
      r.date = fd ∧ r.time = t ∧ lowerStr r.is_booked = "false" := by
  unfold bookRow
  split
  next h1 =>
    split
    next h2 => simp [h1.1, h1.2, h2]
    next h2 => simp [h2]
  next h1 =>
    simp only [Prod.snd]
    constructor
    · intro h; cases h
    · rintro ⟨hd, ht, -⟩; exact absurd ⟨hd, ht⟩ h1

theorem cancelRow_fst_date (fd : DateStr) (nm : String) (r : Row) :
    (cancelRow fd nm r).1.date = r.date := by
  unfold cancelRow
  split <;> rfl

theorem cancelRow_fst_time (fd : DateStr) (nm : String) (r : Row) :
    (cancelRow fd nm r).1.time = r.time := by
  unfold cancelRow
  split <;> rfl

theorem cancelRow_snd (fd : DateStr) (nm : String) (r : Row) :
    (cancelRow fd nm r).2 = cancelMatch fd nm r := by
  unfold cancelRow
  split
  next h => exact h.symm
  next h => simp only [Bool.not_eq_true] at h; exact h.symm

theorem cancelMatch_cancelRow (fd : DateStr) (nm : String) (r : Row) :
    cancelMatch fd nm ((cancelRow fd nm r).1) = false := by
  unfold cancelRow
  split
  next h =>
      unfold cancelMatch
      apply decide_eq_false
      rintro ⟨-, -, h3⟩
      exact absurd h3 (show ¬lowerStr (trimStr "False") = "true" by decide)
  next h =>
      simp only [Bool.not_eq_true] at h
      exact h

theorem shape_map_eq (rows : Table) (f : Row → Row × Bool)
    (hf : ∀ r, (f r).1.date = r.date ∧ (f r).1.time = r.time) :
    ((rows.map f).map (fun q => q.1)).map (fun r => (r.date, r.time))
      = rows.map (fun r => (r.date, r.time)) := by
  induction rows with
  | nil => rfl
  | cons r rs ih =>
      simp only [List.map_cons, List.cons.injEq]
      exact ⟨by rw [(hf r).1, (hf r).2], ih⟩

end VoiceAgent

namespace VoiceAgent

/-! Claim theorems. -/

/-- Claim C1, counterexample: on a ledger holding the same free slot once in
day-first numeric form and once in canonical form, `book("30-05-2025",
"10:00", ...)` succeeds (it books only the literally-matching canonical row),
yet an immediately subsequent `list_free_slots("30-05-2025")` on the
resulting table still contains `"10:00"` (the normalized day-first row
remains free), refuting the claim as stated. -/
theorem c1_counterexample :
    (store_appointment (some mixedTable) (.dmy 30 5 2025) "10:00" "dentist" "Alice").1
      = .ok true ∧
    get_free_slots
      (store_appointment (some mixedTable) (.dmy 30 5 2025) "10:00" "dentist" "Alice").2
      (.dmy 30 5 2025) = .ok ["10:00"] := by
  constructor <;> rfl

/-- Claim C1, amended: when every stored row's date is already in canonical
normalized form (normalizing it returns it unchanged), a successful
`book(d, t, purpose, name)` guarantees that an immediately subsequent
`list_free_slots(d)` on the resulting table does not contain `t`. -/
theorem c1_theorem (rows : Table) (d : DateStr) (t p n : String)
    (hcanon : ∀ r ∈ rows, normStored r.date = some r.date)
    (hbook : (store_appointment (some rows) d t p n).1 = .ok true) :
    ∃ ts, get_free_slots (store_appointment (some rows) d t p n).2 d = .ok ts ∧
      t ∉ ts := by
  cases hp : parseDayfirst d with
  | none =>
      rw [store_appointment, hp] at hbook
      cases hbook
  | some fd =>
      simp only [store_appointment, hp] at hbook
      by_cases hu : (rows.map (bookRow fd t p n)).any (fun q => q.2) = true
      case neg =>
        rw [if_neg hu] at hbook
        cases hbook
      case pos =>
        have h2 : (store_appointment (some rows) d t p n).2
            = some ((rows.map (bookRow fd t p n)).map (fun q => q.1)) := by
          simp only [store_appointment, hp]
          rw [if_pos hu]
        rw [h2]
        set newRows := (rows.map (bookRow fd t p n)).map (fun q => q.1) with hnew
        have hcanon2 : ∀ r2 ∈ newRows, normStored r2.date = some r2.date := by
          intro r2 hr2
          rw [hnew, List.map_map] at hr2
          obtain ⟨q, hq, rfl⟩ := List.mem_map.1 hr2
          show normStored (bookRow fd t p n q).1.date
            = some (bookRow fd t p n q).1.date
          rw [bookRow_fst_date]
          exact hcanon q hq
        simp only [get_free_slots, hp, normTable_id hcanon2]
        refine ⟨_, rfl, ?_⟩
        intro ht
        obtain ⟨r2, hr2, htime⟩ := List.mem_map.1 ht
        have hfil := List.mem_filter.1 hr2
        obtain ⟨hdate, hfree⟩ := of_decide_eq_true hfil.2
        rw [hnew, List.map_map] at hfil
        obtain ⟨q, hq, hqeq⟩ := List.mem_map.1 hfil.1
        have hqeq2 : (bookRow fd t p n q).1 = r2 := hqeq
        by_cases hcond : q.date = fd ∧ q.time = t
        · by_cases hqfree : lowerStr q.is_booked = "false"
          · rw [bookRow, if_pos hcond, if_pos hqfree] at hqeq2
            rw [← hqeq2] at hfree
            exact absurd hfree (show ¬lowerStr "True" = "false" by decide)
          · rw [bookRow, if_pos hcond, if_neg hqfree] at hqeq2
            rw [← hqeq2] at hfree
            exact hqfree hfree
        · rw [bookRow, if_neg hcond] at hqeq2
          rw [← hqeq2] at hdate htime
          exact hcond ⟨hdate, htime⟩

/-- Claim C1, witness: on a canonical one-row ledger the amended theorem
applies with booking `2025-05-30 10:00`. -/
theorem c1_witness :
    ∃ ts, get_free_slots
        (store_appointment (some canonFree) (.dmy 30 5 2025) "10:00" "dentist" "Alice").2
        (.dmy 30 5 2025) = .ok ts ∧ "10:00" ∉ ts :=
  c1_theorem canonFree (.dmy 30 5 2025) "10:00" "dentist" "Alice"
    (by decide) (by decide)

/-- Claim C2, counterexample: the ambiguous stored date string `"05-06-2025"`
is normalized by the slot-listing routine (month-first) to `2025-05-06`, but
the day-first input normalization of the very same representation yields
`2025-06-05`, refuting the claimed agreement of the two normalizations. -/
theorem c2_counterexample :
    normStored (.dmy 5 6 2025) = some (.ymd 2025 5 6) ∧
    parseDayfirst (.dmy 5 6 2025) = some (.ymd 2025 6 5) := by
  constructor <;> rfl

/-- Claim C2, amended: restricted to unambiguous date representations (first
non-year numeric field above 12, equal fields, or month-name forms), the
normalization applied to a stored date agrees with the day-first
normalization of any equivalent representation given as input. -/
theorem c2_theorem (s s2 : DateStr) (h : unambiguousDate s = true)
    (he : parseDayfirst s2 = parseDayfirst s) :
    normStored s = parseDayfirst s2 := by
  rw [he]; clear he
  cases s with
  | ymd y a b =>
      simp only [unambiguousDate, Bool.or_eq_true, decide_eq_true_eq, beq_iff_eq] at h
      rw [normStored, parseDayfirst]
      rcases h with h | h
      · rw [if_neg (by omega)]
      · subst h
        split <;> rfl
  | dmy a b y =>
      simp only [unambiguousDate, Bool.or_eq_true, decide_eq_true_eq, beq_iff_eq] at h
      rw [normStored, parseDayfirst]
      by_cases h31 : 31 < a
      · rw [if_pos h31, if_pos h31]
      · rw [if_neg h31, if_neg h31]
        by_cases h12 : 12 < a
        · rw [if_pos h12, if_pos (Or.inl h12)]
        · rcases h with ((h | h) | h) | h
          · exact absurd h h31
          · exact absurd h h12
          · rw [if_neg (by omega), if_neg (by omega)]
          · by_cases hb : b ≤ 12
            · rw [if_neg h12, if_pos (Or.inr hb), h]
            · rw [if_neg h12, if_neg (by omega)]
  | monthName m d y => rfl

/-- Claim C2, witness: `"30-05-2025"` and `"May 30, 2025"` are unambiguous
equivalent representations, and the stored normalization of the former equals
the day-first normalization of the latter (both `2025-05-30`). -/
theorem c2_witness :
    normStored (.dmy 30 5 2025) = parseDayfirst (.monthName 5 30 2025) :=
  c2_theorem (.dmy 30 5 2025) (.monthName 5 30 2025) (by decide) (by decide)

end VoiceAgent

namespace VoiceAgent

theorem any_snd_map {α β : Type} (l : List α) (f : α → β × Bool) :
    ((l.map f).any fun q => q.2) = (l.any fun x => (f x).2) := by
  induction l with
  | nil => rfl
  | cons a as ih => simp [ih]

/-- Claim C3: when no stored row matches the canonicalized date and the exact
time with `is_booked` reading false, `book` returns false and performs no
write: the stored table is unchanged. -/
theorem c3_theorem (rows : Table) (d : DateStr) (t p n : String) (fd : DateStr)
    (hp : parseDayfirst d = some fd)
    (hno : ∀ r ∈ rows,
      ¬(r.date = fd ∧ r.time = t ∧ lowerStr r.is_booked = "false")) :
    store_appointment (some rows) d t p n = (.ok false, some rows) := by
  have hupd : (rows.map (bookRow fd t p n)).any (fun q => q.2) = false := by
    rw [any_snd_map, List.any_eq_false]
    intro r hr
    simp only [bookRow_snd_iff]
    exact hno r hr
  simp only [store_appointment, hp]
  rw [if_neg (by rw [hupd]; simp)]

/-- Claim C3, witness: booking an already-booked canonical slot returns false
and leaves the one-row table unchanged. -/
theorem c3_witness :
    store_appointment (some canonBooked) (.dmy 30 5 2025) "10:00" "eye" "Carol"
      = (.ok false, some canonBooked) :=
  c3_theorem canonBooked (.dmy 30 5 2025) "10:00" "eye" "Carol" (.ymd 2025 5 30)
    (by decide) (by decide)

/-- Claim C4: with the ledger file absent and a parseable date,
`list_free_slots` returns the empty list, `book` returns false, and `cancel`
returns false; none of the three raises. -/
theorem c4_theorem (d : DateStr) (t p n nm : String) (fd : DateStr)
    (hp : parseDayfirst d = some fd) :
    get_free_slots none d = .ok [] ∧
    store_appointment none d t p n = (.ok false, none) ∧
    cancel_appointment none d nm = (.ok false, none) := by
  refine ⟨?_, ?_, ?_⟩ <;>
    simp only [get_free_slots, store_appointment, cancel_appointment, hp]

/-- Claim C4, witness: the missing-file behavior at the concrete date
`30-05-2025`. -/
theorem c4_witness :
    get_free_slots none (.dmy 30 5 2025) = .ok [] ∧
    store_appointment none (.dmy 30 5 2025) "10:00" "eye" "Carol"
      = (.ok false, none) ∧
    cancel_appointment none (.dmy 30 5 2025) "Carol" = (.ok false, none) :=
  c4_theorem (.dmy 30 5 2025) "10:00" "eye" "Carol" "Carol" (.ymd 2025 5 30)
    (by decide)

/-- Claim C5: cancellation is idempotent in its failure result — with a
parseable date, a second `cancel` with the same arguments immediately after a
first one returns false (the first call left no matching booked row). -/
theorem c5_theorem (file : Option Table) (d : DateStr) (nm : String)
    (fd : DateStr) (hp : parseDayfirst d = some fd) :
    (cancel_appointment (cancel_appointment file d nm).2 d nm).1 = .ok false := by
  have key : ∀ rows : Table, (∀ r ∈ rows, cancelMatch fd nm r = false) →
      (cancel_appointment (some rows) d nm).1 = .ok false := by
    intro rows hall
    have hupd : (rows.map (cancelRow fd nm)).any (fun q => q.2) = false := by
      rw [any_snd_map, List.any_eq_false]
      intro r hr
      simp only [cancelRow_snd]
      simp [hall r hr]
    simp only [cancel_appointment, hp]
    rw [if_neg (by rw [hupd]; simp)]
  cases file with
  | none =>
      have h2 : (cancel_appointment (none : Option Table) d nm).2 = none := by
        simp only [cancel_appointment, hp]
      rw [h2]
      simp only [cancel_appointment, hp]
  | some rows =>
      by_cases hu : (rows.map (cancelRow fd nm)).any (fun q => q.2) = true
      · have h2 : (cancel_appointment (some rows) d nm).2
            = some ((rows.map (cancelRow fd nm)).map (fun q => q.1)) := by
          simp only [cancel_appointment, hp]
          rw [if_pos hu]
        rw [h2]
        apply key
        intro r hr
        rw [List.map_map] at hr
        obtain ⟨q, hq, rfl⟩ := List.mem_map.1 hr
        exact cancelMatch_cancelRow fd nm q
      · have h2 : (cancel_appointment (some rows) d nm).2 = some rows := by
          simp only [cancel_appointment, hp]
          rw [if_neg hu]
        rw [h2]
        apply key
        intro r hr
        have hu2 : (rows.map (cancelRow fd nm)).any (fun q => q.2) = false :=
          Bool.eq_false_iff.2 hu
        rw [any_snd_map, List.any_eq_false] at hu2
        have h3 := hu2 r hr
        simpa [cancelRow_snd] using h3

/-- Claim C5, witness: cancelling Alice's booked canonical slot twice — the
second call returns false. -/
theorem c5_witness :
    (cancel_appointment
      (cancel_appointment (some canonBooked) (.dmy 30 5 2025) "alice").2
      (.dmy 30 5 2025) "alice").1 = .ok false :=
  c5_theorem (some canonBooked) (.dmy 30 5 2025) "alice" (.ymd 2025 5 30)
    (by decide)

theorem bookRow_fst_eq_of_not (fd : DateStr) (t p n : String) (r : Row)
    (h : ¬(r.date = fd ∧ r.time = t ∧ lowerStr r.is_booked = "false")) :
    (bookRow fd t p n r).1 = r := by
  unfold bookRow
  by_cases h1 : r.date = fd ∧ r.time = t
  · rw [if_pos h1]
    by_cases h2 : lowerStr r.is_booked = "false"
    · exact absurd ⟨h1.1, h1.2, h2⟩ h
    · rw [if_neg h2]
  · rw [if_neg h1]

theorem cancelRow_fst_eq_of_not (fd : DateStr) (nm : String) (r : Row)
    (h : ¬(r.date = fd ∧ lowerStr (trimStr r.name) = lowerStr (trimStr nm) ∧
      lowerStr (trimStr r.is_booked) = "true")) :
    (cancelRow fd nm r).1 = r := by
  unfold cancelRow
  rw [if_neg]
  intro hc
  exact h (of_decide_eq_true hc)

/-- Claim C6: booking and cancellation preserve the table's structure: the
resulting file has the same rows with the same dates and times in the same
order, and every row not matching the operation's mutation condition is left
entirely unchanged — only the `is_booked`, `purpose`, and `name` fields of
matching rows change. -/
theorem c6_theorem (file : Option Table) (d : DateStr) (t p n nm : String) :
    (shape (store_appointment file d t p n).2 = shape file ∧
      (parseDayfirst d = none → (store_appointment file d t p n).2 = file) ∧
      ∀ fd rows, parseDayfirst d = some fd → file = some rows →
        ∃ rows2, (store_appointment file d t p n).2 = some rows2 ∧
          List.Forall₂ (fun r r2 => r2.date = r.date ∧ r2.time = r.time ∧
              (¬(r.date = fd ∧ r.time = t ∧ lowerStr r.is_booked = "false") →
                r2 = r))
            rows rows2) ∧
    (shape (cancel_appointment file d nm).2 = shape file ∧
      (parseDayfirst d = none → (cancel_appointment file d nm).2 = file) ∧
      ∀ fd rows, parseDayfirst d = some fd → file = some rows →
        ∃ rows2, (cancel_appointment file d nm).2 = some rows2 ∧
          List.Forall₂ (fun r r2 => r2.date = r.date ∧ r2.time = r.time ∧
              (¬(r.date = fd ∧
                  lowerStr (trimStr r.name) = lowerStr (trimStr nm) ∧
                  lowerStr (trimStr r.is_booked) = "true") → r2 = r))
            rows rows2) := by
  refine ⟨⟨?_, ?_, ?_⟩, ?_, ?_, ?_⟩
  · cases hp : parseDayfirst d with
    | none => simp only [store_appointment, hp]
    | some fd =>
        cases file with
        | none => simp only [store_appointment, hp]
        | some rows =>
            by_cases hu : (rows.map (bookRow fd t p n)).any (fun q => q.2) = true
            · have h2 : (store_appointment (some rows) d t p n).2
                  = some ((rows.map (bookRow fd t p n)).map (fun q => q.1)) := by
                simp only [store_appointment, hp]
                rw [if_pos hu]
              rw [h2]
              simp only [shape, Option.map_some']
              exact congrArg some (shape_map_eq rows (bookRow fd t p n)
                (fun r => ⟨bookRow_fst_date fd t p n r, bookRow_fst_time fd t p n r⟩))
            · have h2 : (store_appointment (some rows) d t p n).2 = some rows := by
                simp only [store_appointment, hp]
                rw [if_neg hu]
              rw [h2]
  · intro hp
    simp only [store_appointment, hp]
  · intro fd rows hp hfile
    subst hfile
    by_cases hu : (rows.map (bookRow fd t p n)).any (fun q => q.2) = true
    · refine ⟨(rows.map (bookRow fd t p n)).map (fun q => q.1), ?_, ?_⟩
      · simp only [store_appointment, hp]
        rw [if_pos hu]
      · rw [List.map_map, List.forall₂_map_right_iff, List.forall₂_same]
        intro r hr
        exact ⟨bookRow_fst_date fd t p n r, bookRow_fst_time fd t p n r,
          fun hnot => bookRow_fst_eq_of_not fd t p n r hnot⟩
    · refine ⟨rows, ?_, ?_⟩
      · simp only [store_appointment, hp]
        rw [if_neg hu]
      · rw [List.forall₂_same]
        intro r hr
        exact ⟨rfl, rfl, fun h => rfl⟩
  · cases hp : parseDayfirst d with
    | none => simp only [cancel_appointment, hp]
    | some fd =>
        cases file with
        | none => simp only [cancel_appointment, hp]
        | some rows =>
            by_cases hu : (rows.map (cancelRow fd nm)).any (fun q => q.2) = true
            · have h2 : (cancel_appointment (some rows) d nm).2
                  = some ((rows.map (cancelRow fd nm)).map (fun q => q.1)) := by
                simp only [cancel_appointment, hp]
                rw [if_pos hu]
              rw [h2]
              simp only [shape, Option.map_some']
              exact congrArg some (shape_map_eq rows (cancelRow fd nm)
                (fun r => ⟨cancelRow_fst_date fd nm r, cancelRow_fst_time fd nm r⟩))
            · have h2 : (cancel_appointment (some rows) d nm).2 = some rows := by
                simp only [cancel_appointment, hp]
                rw [if_neg hu]
              rw [h2]
  · intro hp
    simp only [cancel_appointment, hp]
  · intro fd rows hp hfile
    subst hfile
    by_cases hu : (rows.map (cancelRow fd nm)).any (fun q => q.2) = true
    · refine ⟨(rows.map (cancelRow fd nm)).map (fun q => q.1), ?_, ?_⟩
      · simp only [cancel_appointment, hp]
        rw [if_pos hu]
      · rw [List.map_map, List.forall₂_map_right_iff, List.forall₂_same]
        intro r hr
        exact ⟨cancelRow_fst_date fd nm r, cancelRow_fst_time fd nm r,
          fun hnot => cancelRow_fst_eq_of_not fd nm r hnot⟩
    · refine ⟨rows, ?_, ?_⟩
      · simp only [cancel_appointment, hp]
        rw [if_neg hu]
      · rw [List.forall₂_same]
        intro r hr
        exact ⟨rfl, rfl, fun h => rfl⟩

/-- Claim C6, witness: booking the free `10:00` slot of the two-slot ledger
books exactly that row and leaves the non-matching booked `11:00` row
entirely unchanged, with dates and times preserved in order. -/
theorem c6_witness :
    ∃ rows2,
      (store_appointment (some twoSlots) (.dmy 30 5 2025) "10:00" "eye" "Eve").2
        = some rows2 ∧
      List.Forall₂ (fun r r2 => r2.date = r.date ∧ r2.time = r.time ∧
          (¬(r.date = DateStr.ymd 2025 5 30 ∧ r.time = "10:00" ∧
              lowerStr r.is_booked = "false") → r2 = r))
        twoSlots rows2 :=
  ((c6_theorem (some twoSlots) (.dmy 30 5 2025) "10:00" "eye" "Eve" "Eve").1.2.2
    (.ymd 2025 5 30) twoSlots (by decide) rfl)
end VoiceAgent

namespace VoiceAgent

/-- Claim C7: every time label returned by `list_free_slots` comes from a
stored row whose `is_booked` reads as false (case-insensitively) — never from
a booked row — and the returned labels follow file row order. -/
theorem c7_theorem (rows : Table) (d : DateStr) (ts : List String)
    (h : get_free_slots (some rows) d = .ok ts) :
    (∀ t ∈ ts, ∃ r ∈ rows, r.time = t ∧ lowerStr r.is_booked = "false") ∧
    List.Sublist ts (rows.map (fun r => r.time)) := by
  cases hp : parseDayfirst d with
  | none => simp only [get_free_slots, hp] at h; cases h
  | some fd =>
      cases hn : normTable rows with
      | none => simp only [get_free_slots, hp, hn] at h; cases h
      | some nrows =>
          simp only [get_free_slots, hp, hn] at h
          cases h
          constructor
          · intro t ht
            obtain ⟨nr, hnr, rfl⟩ := List.mem_map.1 ht
            have hfil := List.mem_filter.1 hnr
            obtain ⟨q, hq, h1, h2⟩ := normTable_mem hn nr hfil.1
            obtain ⟨-, hfree⟩ := of_decide_eq_true hfil.2
            exact ⟨q, hq, h1.symm, by rw [← h2]; exact hfree⟩
          · have h1 : List.Sublist (nrows.filter (freeOn fd)) nrows :=
              List.filter_sublist nrows
            have h2 := h1.map (fun r => r.time)
            rw [normTable_map_time hn] at h2
            exact h2

/-- Claim C7, witness: on the two-slot canonical ledger the listing returns
exactly `["10:00"]`, whose row is free, in row order. -/
theorem c7_witness :
    (∀ t ∈ (["10:00"] : List String),
      ∃ r ∈ twoSlots, r.time = t ∧ lowerStr r.is_booked = "false") ∧
    List.Sublist ["10:00"] (twoSlots.map (fun r => r.time)) :=
  c7_theorem twoSlots (.ymd 2025 5 30) ["10:00"] (by decide)

/-- Claim C8: for an unparseable input date, each of the three ledger
operations fails with the date-parse error, raised before the file is read or
written, so the stored table is unchanged. -/
theorem c8_theorem (file : Option Table) (d : DateStr) (t p n nm : String)
    (h : parseDayfirst d = none) :
    get_free_slots file d = .error .dateParseError ∧
    store_appointment file d t p n = (.error .dateParseError, file) ∧
    cancel_appointment file d nm = (.error .dateParseError, file) := by
  refine ⟨?_, ?_, ?_⟩ <;>
    simp only [get_free_slots, store_appointment, cancel_appointment, h]

/-- Claim C8, witness: the unparseable numeric date `99-99-9999` makes all
three operations fail fast with the table untouched. -/
theorem c8_witness :
    get_free_slots (some canonFree) (.dmy 99 99 9999) = .error .dateParseError ∧
    store_appointment (some canonFree) (.dmy 99 99 9999) "10:00" "eye" "Dan"
      = (.error .dateParseError, some canonFree) ∧
    cancel_appointment (some canonFree) (.dmy 99 99 9999) "Dan"
      = (.error .dateParseError, some canonFree) :=
  c8_theorem (some canonFree) (.dmy 99 99 9999) "10:00" "eye" "Dan" "Dan"
    (by decide)

/-- Claim C9: the agent-level cancel tool ignores the session's configured
CSV path — its behavior is invariant under changing
`UserData.appointment_csv`, it reads only the fixed path
`"appointments.csv"`, and it writes no other path. -/
theorem c9_theorem (fs : FS) (ud : UserData) (nm : String) (d : DateStr)
    (p : String) :
    (AppointmentAgent.cancel_appointment fs { ud with appointment_csv := p } nm d
      = AppointmentAgent.cancel_appointment fs ud nm d) ∧
    (∀ fs2 : FS, fs2 "appointments.csv" = fs "appointments.csv" →
      (AppointmentAgent.cancel_appointment fs2 ud nm d).1
        = (AppointmentAgent.cancel_appointment fs ud nm d).1) ∧
    (∀ q, q ≠ "appointments.csv" →
      (AppointmentAgent.cancel_appointment fs ud nm d).2 q = fs q) := by
  refine ⟨rfl, ?_, ?_⟩
  · intro fs2 hf
    simp only [AppointmentAgent.cancel_appointment]
    rw [hf]
    rcases hres : VoiceAgent.cancel_appointment (fs "appointments.csv") d nm
      with ⟨a, b⟩
    cases a <;> rfl
  · intro q hq
    simp only [AppointmentAgent.cancel_appointment]
    rcases hres : VoiceAgent.cancel_appointment (fs "appointments.csv") d nm
      with ⟨a, b⟩
    cases a with
    | error e => rfl
    | ok success => simp [hq]

/-- Claim C9, witness: with a session configured on `"other.csv"`, the cancel
tool behaves as with the default session and leaves `"other.csv"` (where
bookings would be written) untouched. -/
theorem c9_witness :
    (AppointmentAgent.cancel_appointment exFS
        { appointment_csv := "other.csv" } "Alice" (.dmy 30 5 2025)
      = AppointmentAgent.cancel_appointment exFS {} "Alice" (.dmy 30 5 2025)) ∧
    (AppointmentAgent.cancel_appointment exFS {} "Alice" (.dmy 30 5 2025)).2
        "other.csv" = exFS "other.csv" :=
  ⟨(c9_theorem exFS {} "Alice" (.dmy 30 5 2025) "other.csv").1,
   (c9_theorem exFS {} "Alice" (.dmy 30 5 2025) "other.csv").2.2 "other.csv"
     (by decide)⟩

/-- Claim C10: the agent-level slot tool records the raw input date as the
session's selected date in every case, and when the underlying slot lookup
fails with any error the tool returns the empty list instead of propagating
the exception. -/
theorem c10_theorem (fs : FS) (ud : UserData) (d : DateStr) :
    (AppointmentAgent.get_available_slots fs ud d).2.selected_date = some d ∧
    ∀ e, get_free_slots (fs ud.appointment_csv) d = .error e →
      (AppointmentAgent.get_available_slots fs ud d).1 = [] := by
  unfold AppointmentAgent.get_available_slots
  cases hfs : fs ud.appointment_csv with
  | none =>
      exact ⟨by simp [hfs], fun e he => by simp [hfs]⟩
  | some file =>
      cases hg : get_free_slots (some file) d with
      | error e =>
          exact ⟨by simp [hfs, hg], fun e2 h2 => by simp [hfs, hg]⟩
      | ok slots =>
          refine ⟨by simp [hfs, hg], fun e2 h2 => ?_⟩
          cases h2

/-- Claim C10, witness: on an unparseable date the slot lookup raises a
date-parse error, yet the tool returns `[]` and still records the raw date as
the session's selected date. -/
theorem c10_witness :
    (AppointmentAgent.get_available_slots exFS2 {} (.dmy 99 99 9999)).2.selected_date
      = some (.dmy 99 99 9999) ∧
    (AppointmentAgent.get_available_slots exFS2 {} (.dmy 99 99 9999)).1 = [] :=
  ⟨(c10_theorem exFS2 {} (.dmy 99 99 9999)).1,
   (c10_theorem exFS2 {} (.dmy 99 99 9999)).2 .dateParseError (by decide)⟩

end VoiceAgent
